import Mathlib

/-!
Shallow embedding of the macD process supervisor (src/macD.c).

Pure algorithms (string/number conversion, CPU-percent arithmetic, the
stop-condition predicate) are translated directly.  Interaction with the
operating system is made explicit: per-process liveness (`waitpid` with
`WNOHANG`), the contents of `/proc/<pid>/stat` and `/proc/<pid>/statm`,
the wall clock and the asynchronous interrupt flag are inputs supplied by
an environment, and the supervision loop is a function of that
environment.  C `int` arithmetic is modelled on `Int` with `Int.tdiv`
(truncation toward zero, the semantics of C integer division).
-/

namespace MacD

/-! ### convert_str_to_int (macD.c lines 207-256)

The C function walks the string; each character is classified by a
`switch` over the ten digit characters (`add = -1` for anything else),
and on a non-digit the function returns `-1` immediately; otherwise it
accumulates `total = total * 10 + add`. -/

/-- The `switch` statement of `convert_str_to_int`: the digit value of a
character, or `-1` for a non-digit. -/
def char_add (c : Char) : Int :=
  if c = '0' then 0
  else if c = '1' then 1
  else if c = '2' then 2
  else if c = '3' then 3
  else if c = '4' then 4
  else if c = '5' then 5
  else if c = '6' then 6
  else if c = '7' then 7
  else if c = '8' then 8
  else if c = '9' then 9
  else -1

/-- The accumulation loop of `convert_str_to_int`. -/
def convert_str_to_int_loop : List Char → Int → Int
  | [], total => total
  | c :: rest, total =>
      if char_add c = -1 then -1
      else convert_str_to_int_loop rest (total * 10 + char_add c)

/-- `convert_str_to_int` from macD.c: parse a decimal string, `-1` on any
non-digit character. -/
def convert_str_to_int (s : List Char) : Int :=
  convert_str_to_int_loop s 0

/-- Digit-membership predicate used to state claims about non-digit
characters (independently of the code's own `switch`). -/
def is_digit_char (c : Char) : Bool :=
  c == '0' || c == '1' || c == '2' || c == '3' || c == '4' ||
  c == '5' || c == '6' || c == '7' || c == '8' || c == '9'

/-! ### convert_int_to_string (macD.c lines 525-553)

For `i = 0` the C function returns `"0"`; otherwise it emits the decimal
digits least-significant first (`d = i % 10; str[index] = '0' + d;
i = (i - d) / 10`) and then reverses the buffer. -/

/-- `'0' + d` of the C code. -/
def digit_char (d : Nat) : Char :=
  Char.ofNat (48 + d)

/-- The digit-emitting `while (i > 0)` loop of `convert_int_to_string`:
digits least-significant first. -/
def int_to_string_loop (i : Nat) : List Char :=
  if h : i = 0 then []
  else digit_char (i % 10) :: int_to_string_loop (i / 10)
decreasing_by exact Nat.div_lt_self (Nat.pos_of_ne_zero h) (by norm_num)

/-- `convert_int_to_string` from macD.c (for the in-range case `i ≥ 0`):
decimal digits of `i`, most significant first. -/
def convert_int_to_string (i : Nat) : List Char :=
  if i = 0 then ['0'] else (int_to_string_loop i).reverse

/-! ### Usage Sampler (macD.c lines 637-679 and 691-724)

`get_cpu_usage` opens `/proc/<pid>/stat`; if the file is absent the
function takes the `fptr == NULL` branch (returning `-1`).  Otherwise it
skips 13 space-separated fields (returning `-1` if the file has fewer),
then reads the next two segments (user time, kernel time) and returns
their sum.  `get_mem_usage` opens `/proc/<pid>/statm`, `-1` if absent;
otherwise it sums every numeric field and returns `sum / 1024`.

The file contents are modelled as the list of space-separated numeric
fields; `none` models a path that does not exist (`fopen` = NULL). -/

/-- `get_cpu_usage` from macD.c over the abstract `/proc/<pid>/stat`
contents.  A missing 14th field reads as the empty segment (`atoi` = 0),
hence `getD _ 0`. -/
def get_cpu_usage (stat : Option (List Int)) : Int :=
  match stat with
  | none => -1
  | some fields =>
      if fields.length < 14 then -1
      else fields.getD 13 0 + fields.getD 14 0

/-- The summing `while` loop of `get_mem_usage`. -/
def mem_sum_loop : List Nat → Nat → Nat
  | [], sum => sum
  | x :: rest, sum => mem_sum_loop rest (sum + x)

/-- `get_mem_usage` from macD.c over the abstract `/proc/<pid>/statm`
contents (page counts). -/
def get_mem_usage (statm : Option (List Nat)) : Int :=
  match statm with
  | none => -1
  | some pages => ((mem_sum_loop pages 0) / 1024 : Nat)

/-! ### Process Launcher and read_file (macD.c lines 129-150 and 426-488)

`create_process` forks; `fork() == -1` makes the whole program
`exit(1)`.  In the child, `execvp` replaces the image; if the exec fails
the child `exit(errno)`s (its write to `*out_pid` happens in the child's
own address space and is invisible to the parent).  The parent sleeps
100 ms and does a `waitpid(pid, NULL, WNOHANG)`; the slot is a success
exactly when that returns 0 (child still running).  Whether a given
command line forks, execs and survives the grace period is decided by
the operating system, so it is an input here: each input line carries
its launch outcome. -/

/-- Outcome of the fork/exec/grace-period sequence for one nonempty
line, as observed by the parent. -/
inductive ExecResult
  | forkFail
  | execFail
  | started (pid : Nat)
  deriving DecidableEq

/-- One line of the input file (after the optional `timelimit` line):
either empty, or a command whose first token is `path` with the given
launch outcome. -/
inductive LaunchInput
  | emptyLine
  | cmd (path : String) (res : ExecResult)
  deriving DecidableEq

/-- What `read_file` prints for one line. -/
inductive LaunchStatus
  | started (path : String) (pid : Nat)
  | badEmpty
  | badProgram (path : String)
  deriving DecidableEq

/-- The `while (line != NULL)` loop of `read_file`: per line it prints a
numbered report; a successful launch additionally appends its pid to the
`pids` array.  `none` models `exit(1)` on a fork failure. -/
def read_file_loop : List LaunchInput → Nat → Option (List (Nat × LaunchStatus) × List Nat)
  | [], _ => some ([], [])
  | LaunchInput.emptyLine :: rest, lineNumber =>
      match read_file_loop rest (lineNumber + 1) with
      | none => none
      | some (reports, pids) => some ((lineNumber, LaunchStatus.badEmpty) :: reports, pids)
  | LaunchInput.cmd _ ExecResult.forkFail :: _, _ => none
  | LaunchInput.cmd path ExecResult.execFail :: rest, lineNumber =>
      match read_file_loop rest (lineNumber + 1) with
      | none => none
      | some (reports, pids) => some ((lineNumber, LaunchStatus.badProgram path) :: reports, pids)
  | LaunchInput.cmd path (ExecResult.started pid) :: rest, lineNumber =>
      match read_file_loop rest (lineNumber + 1) with
      | none => none
      | some (reports, pids) => some ((lineNumber, LaunchStatus.started path pid) :: reports, pid :: pids)

/-- `read_file` from macD.c, over the command lines: the launch reports
with their printed indices and the pid table handed to
`periodic_reports` (`none` = the program exited fatally on a fork
failure). -/
def read_file (lines : List LaunchInput) : Option (List (Nat × LaunchStatus) × List Nat) :=
  read_file_loop lines 0

/-- Whether a line's launch dies in `fork()` itself. -/
def has_fork_fail : LaunchInput → Bool
  | LaunchInput.cmd _ ExecResult.forkFail => true
  | _ => false

/-- The report `read_file` prints for a line (meaningful when the line
is not a fork failure). -/
def launch_status : LaunchInput → LaunchStatus
  | LaunchInput.emptyLine => LaunchStatus.badEmpty
  | LaunchInput.cmd path ExecResult.forkFail => LaunchStatus.badProgram path
  | LaunchInput.cmd path ExecResult.execFail => LaunchStatus.badProgram path
  | LaunchInput.cmd path (ExecResult.started pid) => LaunchStatus.started path pid

/-- The pid a line contributes to the polled table, if any. -/
def success_pid : LaunchInput → Option Nat
  | LaunchInput.cmd _ (ExecResult.started pid) => some pid
  | _ => none

/-- Pair each element with its position, starting at `n` (the
`line_number` / `index` counters of the C loops). -/
def number_from (n : Nat) : List α → List (Nat × α)
  | [] => []
  | a :: rest => (n, a) :: number_from (n + 1) rest

/-! ### Supervision loop (macD.c lines 743-754 and 868-914)

The OS-dependent inputs of one reporting pass: `alive pid` is
`waitpid(pid, NULL, WNOHANG) == 0`, `stat`/`statm` are the
`/proc/<pid>/stat` and `/proc/<pid>/statm` contents. -/

structure Env where
  alive : Nat → Bool
  stat : Nat → Option (List Int)
  statm : Nat → Option (List Nat)

/-- `initialize_cpu_counters` from macD.c: initial CPU tick counts, with
negative sampler results clamped to 0. -/
def initialize_cpu_counters (env : Env) (pids : List Nat) : List Int :=
  pids.map (fun p => let c := get_cpu_usage (env.stat p); if c < 0 then 0 else c)

/-- `full_cpu_increase = 5 * sysconf(_SC_CLK_TCK)`. -/
def full_cpu_increase (clk : Int) : Int := 5 * clk

/-- One line of a normal report. -/
inductive ReportLine
  | running (index : Nat) (cpu mem : Int)
  | exited (index : Nat)
  deriving DecidableEq

/-- Result of one reporting pass: the printed lines, the updated
`counters` array, and the C variable `done` (1 iff no child was found
alive). -/
structure PassResult where
  lines : List ReportLine
  counters : List Int
  done : Bool
  deriving DecidableEq

/-- The inner `while (pids[index] != -1)` loop of `periodic_reports`:
for an alive child, sample CPU and memory, print
`cpu_percent = ((cpu - counters[index]) * 100) / full_cpu_increase`
(C truncating division) and store `counters[index] = cpu`; for an exited
child print `[index] Exited` and leave its counter alone. -/
def report_pass (env : Env) (clk : Int) : List (Nat × Int) → Nat → PassResult
  | [], _ => ⟨[], [], true⟩
  | (pid, counter) :: rest, index =>
      let r := report_pass env clk rest (index + 1)
      if env.alive pid then
        let cpu := get_cpu_usage (env.stat pid)
        ⟨ReportLine.running index (Int.tdiv ((cpu - counter) * 100) (full_cpu_increase clk))
            (get_mem_usage (env.statm pid)) :: r.lines,
          cpu :: r.counters, false⟩
      else
        ⟨ReportLine.exited index :: r.lines, counter :: r.counters, r.done⟩

/-! ### check_timer and the Termination Handler (macD.c lines 795-839) -/

/-- `check_timer` from macD.c: 1 when the deadline has passed (and a
deadline is configured, `TARGET_TIME != -1`) or `KILL_STATE == 1`,
otherwise 0. -/
def check_timer (START TARGET KILL current : Int) : Int :=
  if current - START ≥ TARGET ∧ TARGET ≠ -1 then 1
  else if KILL = 1 then 1
  else 0

/-- A line of program output relevant to the claims (banners and dates
are formatting, out of scope). -/
inductive OutLine
  | runningLine (index : Nat) (cpu mem : Int)
  | exitedLine (index : Nat)
  | terminatedLine (index : Nat)
  | exitingLine (total : Int)
  deriving DecidableEq

/-- Result of `terminate_program`: what it prints, which pids receive
`SIGKILL`, and the process exit code. -/
structure TermResult where
  output : List OutLine
  kills : List Nat
  exitCode : Nat
  deriving DecidableEq

/-- The `while (pid != -1)` loop of `terminate_program`: per tracked
pid, in index order, a `waitpid(..., WNOHANG)` liveness check; a live
child is reported `Terminated` and killed, an exited one reported
`Exited`. -/
def terminate_loop (alive : Nat → Bool) : List Nat → Nat → List OutLine × List Nat
  | [], _ => ([], [])
  | pid :: rest, index =>
      let r := terminate_loop alive rest (index + 1)
      if alive pid then (OutLine.terminatedLine index :: r.1, pid :: r.2)
      else (OutLine.exitedLine index :: r.1, r.2)

/-- `terminate_program` from macD.c: per-child final status and kills,
then `Exiting (total time: ...)` and `exit(0)`. -/
def terminate_program (alive : Nat → Bool) (pids : List Nat) (elapsed : Int) : TermResult :=
  let r := terminate_loop alive pids 0
  ⟨r.1 ++ [OutLine.exitingLine elapsed], r.2, 0⟩

/-! ### The outer loop of periodic_reports as a whole-run model

Each interval k supplies: the OS state during the pass, the time
`time(NULL)` read on the all-exited path, and the sequence of
`(time(NULL), KILL_STATE)` samples the busy-wait sleep loop observes
during its 5-second window. -/

structure IntervalEnv where
  env : Env
  doneTime : Int
  polls : List (Int × Int)

/-- The sleep loop of `periodic_reports`: the first polled time at which
`check_timer` fires, if any. -/
def find_stop (START TARGET : Int) : List (Int × Int) → Option Int
  | [] => none
  | (t, k) :: rest => if check_timer START TARGET k t = 1 then some t else find_stop START TARGET rest

/-- How a run of `periodic_reports` ends. -/
inductive RunOutcome
  | allExited (output : List OutLine) (exitCode : Nat)
  | terminated (output : List OutLine) (exitCode : Nat)
  | fuelOut (output : List OutLine)
  deriving DecidableEq

/-- Normal-report lines as program output. -/
def reportToOut : ReportLine → OutLine
  | ReportLine.running i c m => OutLine.runningLine i c m
  | ReportLine.exited i => OutLine.exitedLine i

/-- The `while (1)` loop of `periodic_reports`, fuelled: pass, then the
`done == 1` check (print total time, `exit(0)`), then the sleep loop
(`terminate_program` at the first firing poll), then the next interval
with the updated counters. -/
def run (START TARGET clk : Int) (ienv : Nat → IntervalEnv) :
    Nat → Nat → List (Nat × Int) → RunOutcome
  | 0, _, _ => RunOutcome.fuelOut []
  | fuel + 1, k, procs =>
      let e := ienv k
      let pass := report_pass e.env clk procs 0
      let out := pass.lines.map reportToOut
      if pass.done then
        RunOutcome.allExited (out ++ [OutLine.exitingLine (e.doneTime - START)]) 0
      else
        match find_stop START TARGET e.polls with
        | some t =>
            let tr := terminate_program e.env.alive (procs.map Prod.fst) (t - START)
            RunOutcome.terminated (out ++ tr.output) tr.exitCode
        | none =>
            match run START TARGET clk ienv fuel (k + 1) ((procs.map Prod.fst).zip pass.counters) with
            | RunOutcome.allExited o c => RunOutcome.allExited (out ++ o) c
            | RunOutcome.terminated o c => RunOutcome.terminated (out ++ o) c
            | RunOutcome.fuelOut o => RunOutcome.fuelOut (out ++ o)

/-! ### Concrete instances used by witnesses -/

/-- A `/proc/<pid>/stat` content whose user time is 100 and kernel time
is 50 (total 150 ticks). -/
def stat_example : List Int :=
  [0, 0, 0, 0, 0, 0, 0, 0, 0, 0, 0, 0, 0, 100, 50]

/-- An environment where every pid is alive, reads `stat_example`, and
has 3048 pages resident. -/
def env_sample : Env :=
  ⟨fun _ => true, fun _ => some stat_example, fun _ => some [2048, 1000]⟩

/-- An environment in which every child has already exited. -/
def env_dead : Env :=
  ⟨fun _ => false, fun _ => none, fun _ => none⟩

/-- Intervals where all children are dead, the all-exited exit happens
at time 7, and the interrupt flag is already set (`KILL_STATE = 1` at
the first poll) — both stop conditions hold at once. -/
def cenv_dead : Nat → IntervalEnv :=
  fun _ => ⟨env_dead, 7, [(0, 1)]⟩

/-- Intervals where children stay alive and the sleep loop observes
time 20 with the flag clear. -/
def cenv_alive : Nat → IntervalEnv :=
  fun _ => ⟨env_sample, 0, [(20, 0)]⟩

/-! ## Helper lemmas -/

lemma char_add_digit (d : Nat) (h : d < 10) : char_add (digit_char d) = (d : Int) := by
  interval_cases d <;> decide

lemma char_add_eq_neg_iff (c : Char) : char_add c = -1 ↔ is_digit_char c = false := by
  unfold char_add is_digit_char
  split_ifs <;> simp_all

lemma parse_loop_append (l1 l2 : List Char) (acc : Int)
    (h : ∀ c ∈ l1, char_add c ≠ -1) :
    convert_str_to_int_loop (l1 ++ l2) acc =
      convert_str_to_int_loop l2 (convert_str_to_int_loop l1 acc) := by
  induction l1 generalizing acc with
  | nil => rfl
  | cons c rest ih =>
      have hc : char_add c ≠ -1 := h c (by simp)
      simp only [List.cons_append, convert_str_to_int_loop, if_neg hc]
      exact ih _ (fun d hd => h d (by simp [hd]))

lemma int_to_string_loop_digits (i : Nat) : ∀ c ∈ int_to_string_loop i, char_add c ≠ -1 := by
  induction i using Nat.strong_induction_on with
  | _ i ih =>
      rw [int_to_string_loop]
      split
      · simp
      · rename_i h
        intro c hc
        rcases List.mem_cons.mp hc with hc | hc
        · subst hc
          rw [char_add_digit (i % 10) (Nat.mod_lt _ (by norm_num))]
          omega
        · exact ih (i / 10) (Nat.div_lt_self (Nat.pos_of_ne_zero h) (by norm_num)) c hc

lemma parse_digits (i : Nat) : ∀ acc : Int,
    convert_str_to_int_loop ((int_to_string_loop i).reverse) acc =
      acc * 10 ^ (int_to_string_loop i).length + (i : Int) := by
  induction i using Nat.strong_induction_on with
  | _ i ih =>
      intro acc
      rw [int_to_string_loop]
      split
      · rename_i h
        subst h
        simp [convert_str_to_int_loop]
      · rename_i h
        rw [List.reverse_cons, parse_loop_append _ _ _
            (fun c hc => int_to_string_loop_digits (i / 10) c (List.mem_reverse.mp hc))]
        rw [ih (i / 10) (Nat.div_lt_self (Nat.pos_of_ne_zero h) (by norm_num)) acc]
        have h10 : i % 10 < 10 := Nat.mod_lt _ (by norm_num)
        have hca : char_add (digit_char (i % 10)) = ((i % 10 : Nat) : Int) :=
          char_add_digit _ h10
        have hne : char_add (digit_char (i % 10)) ≠ -1 := by rw [hca]; omega
        simp only [convert_str_to_int_loop, if_neg hne, hca]
        have hdm : ((i : Nat) : Int) = 10 * ((i / 10 : Nat) : Int) + ((i % 10 : Nat) : Int) := by
          exact_mod_cast (Nat.div_add_mod i 10).symm
        rw [List.length_cons, pow_succ, hdm]
        ring_nf
        rw [if_neg (by omega : ¬((i % 10 : Nat) : Int) = -1)]

lemma parse_nondigit (s : List Char) : ∀ acc : Int,
    (∃ c ∈ s, is_digit_char c = false) → convert_str_to_int_loop s acc = -1 := by
  induction s with
  | nil => intro acc h; simp at h
  | cons c rest ih =>
      intro acc h
      by_cases hc : char_add c = -1
      · simp [convert_str_to_int_loop, hc]
      · have hcd : is_digit_char c = true := by
          rcases Bool.eq_false_or_eq_true (is_digit_char c) with ht | hf
          · exact ht
          · exact absurd ((char_add_eq_neg_iff c).mpr hf) hc
        obtain ⟨d, hd, hdd⟩ := h
        rcases List.mem_cons.mp hd with rfl | hd2
        · rw [hcd] at hdd; cases hdd
        · simp only [convert_str_to_int_loop, if_neg hc]
          exact ih _ ⟨d, hd2, hdd⟩

/-! ## C10 -/

/-- C10: integer/string conversion round-trip: for every natural `i`
(the C precondition `i >= 0`, with mathematical integers standing for
non-overflowing `int`), parsing the decimal string produced by
`convert_int_to_string` yields `i` back; and `convert_str_to_int`
returns `-1` on any string containing a non-digit character. -/
theorem convert_roundtrip_spec :
    (∀ i : Nat, convert_str_to_int (convert_int_to_string i) = (i : Int)) ∧
    (∀ s : List Char, (∃ c ∈ s, is_digit_char c = false) → convert_str_to_int s = -1) := by
  constructor
  · intro i
    unfold convert_str_to_int convert_int_to_string
    by_cases h : i = 0
    · subst h
      decide
    · rw [if_neg h, parse_digits i 0]
      simp
  · intro s hs
    exact parse_nondigit s 0 hs

/-- C10 witness: the round-trip at 2026 and rejection of `"4x"`. -/
theorem convert_roundtrip_spec_witness :
    convert_str_to_int (convert_int_to_string 2026) = (2026 : Int) ∧
    convert_str_to_int ['4', 'x'] = -1 :=
  ⟨by exact_mod_cast convert_roundtrip_spec.1 2026,
    convert_roundtrip_spec.2 ['4', 'x'] ⟨'x', by decide, by decide⟩⟩

/-! ## C1 -/

/-- C1: for a tracked process found alive at an interval
(`waitpid(..., WNOHANG) == 0`), the reported CPU percentage is exactly
`(currentTicks - previousTicks) * 100 / (5 * clockTicksPerSecond)` in
integer arithmetic (C truncating division), with no clamping to
`[0, 100]`, and the stored previous-ticks counter is updated to
`currentTicks`. -/
theorem cpu_percent_spec (env : Env) (clk : Int) (pid : Nat) (counter : Int)
    (rest : List (Nat × Int)) (index : Nat) (halive : env.alive pid = true) :
    (report_pass env clk ((pid, counter) :: rest) index).lines.head? =
      some (ReportLine.running index
        (Int.tdiv ((get_cpu_usage (env.stat pid) - counter) * 100) (5 * clk))
        (get_mem_usage (env.statm pid))) ∧
    (report_pass env clk ((pid, counter) :: rest) index).counters.head? =
      some (get_cpu_usage (env.stat pid)) := by
  simp [report_pass, halive, full_cpu_increase]

/-- C1 witness: previousTicks 100, currentTicks 150 (user 100 + kernel
50 from `stat_example`), 100 clock ticks per second: the report reads
exactly 10 percent and the stored counter becomes 150. -/
theorem cpu_percent_spec_witness :
    env_sample.alive 7 = true ∧
    (report_pass env_sample 100 [(7, 100)] 0).lines.head? =
      some (ReportLine.running 0 10 2) ∧
    (report_pass env_sample 100 [(7, 100)] 0).counters.head? = some 150 := by
  have h := cpu_percent_spec env_sample 100 7 100 [] 0 rfl
  exact ⟨rfl, by rw [h.1]; rfl, by rw [h.2]; rfl⟩

/-! ## C5 -/

/-- C5: the NotFound sentinel of the Usage Sampler: when the per-process
statistics path does not exist (`fopen` returned NULL, modelled by
`none`), both samplers yield `-1`, the documented "process gone" signal.
This theorem records the defined control flow of the `fptr == NULL`
branches; the C source additionally calls `fclose(NULL)` on exactly
these branches, which is undefined behaviour and contradicts the
functions' own doc comments — a code defect, see the analysis of this
claim. -/
theorem sampler_notfound :
    get_cpu_usage none = -1 ∧ get_mem_usage none = -1 :=
  ⟨rfl, rfl⟩

/-! ## C6 -/

/-- C6: the stop condition polled by the loop holds exactly when a time
limit is configured (`TARGET != -1`) and the elapsed time since start
reaches it, or the interrupt flag is set (`KILL_STATE == 1`); with no
configured limit the deadline clause never triggers. -/
theorem check_timer_spec :
    (∀ START TARGET KILL current : Int,
      check_timer START TARGET KILL current = 1 ↔
        (TARGET ≠ -1 ∧ current - START ≥ TARGET) ∨ KILL = 1) ∧
    (∀ START KILL current : Int,
      check_timer START (-1) KILL current = 1 ↔ KILL = 1) := by
  unfold check_timer
  constructor <;> intros <;> split_ifs <;> omega

/-! ## C9 -/

lemma mem_sum_loop_eq (l : List Nat) : ∀ s : Nat, mem_sum_loop l s = s + l.sum := by
  induction l with
  | nil => intro s; simp [mem_sum_loop]
  | cons x rest ih =>
      intro s
      rw [mem_sum_loop, ih, List.sum_cons]
      omega

/-- C9: for a process whose statistics are readable, the memory sampler
returns the sum of every page-count field of the per-process memory
statistics file, divided by 1024 with integer (floor) division. -/
theorem mem_usage_spec (pages : List Nat) :
    get_mem_usage (some pages) = ((pages.sum / 1024 : Nat) : Int) := by
  have h : get_mem_usage (some pages) = ((mem_sum_loop pages 0 / 1024 : Nat) : Int) := rfl
  rw [h, mem_sum_loop_eq]
  simp

/-! ## read_file structure lemmas -/

lemma number_from_length {α : Type} (l : List α) : ∀ n, (number_from n l).length = l.length := by
  induction l with
  | nil => intro n; rfl
  | cons a rest ih => intro n; simp [number_from, ih]

lemma number_from_map_fst {α : Type} (l : List α) :
    ∀ n, (number_from n l).map Prod.fst = List.range' n l.length := by
  induction l with
  | nil => intro n; rfl
  | cons a rest ih =>
      intro n
      simp [number_from, ih, List.range'_succ]

lemma number_from_mem {α : Type} {l : List α} :
    ∀ n k a, (k, a) ∈ number_from n l → a ∈ l := by
  induction l with
  | nil => intro n k a h; simp [number_from] at h
  | cons x rest ih =>
      intro n k a h
      simp only [number_from, List.mem_cons, Prod.mk.injEq] at h
      rcases h with ⟨hk, rfl⟩ | h
      · exact List.mem_cons_self _ _
      · exact List.mem_cons_of_mem _ (ih _ _ _ h)

lemma filterMap_length_of_isSome {α β : Type} (f : α → Option β) :
    ∀ l : List α, (∀ a ∈ l, (f a).isSome = true) → (l.filterMap f).length = l.length := by
  intro l
  induction l with
  | nil => intro h; rfl
  | cons a rest ih =>
      intro h
      obtain ⟨b, hb⟩ := Option.isSome_iff_exists.mp (h a (by simp))
      rw [List.filterMap_cons, hb]
      simp [ih (fun x hx => h x (by simp [hx]))]

lemma filterMap_getElem_of_isSome {α β : Type} (f : α → Option β) :
    ∀ l : List α, (∀ a ∈ l, (f a).isSome = true) →
      ∀ i : Nat, (l.filterMap f)[i]? = (l[i]?).bind f := by
  intro l
  induction l with
  | nil => intro h i; simp
  | cons a rest ih =>
      intro h i
      obtain ⟨b, hb⟩ := Option.isSome_iff_exists.mp (h a (by simp))
      rw [List.filterMap_cons, hb]
      cases i with
      | zero => simp [hb]
      | succ j => simpa using ih (fun x hx => h x (by simp [hx])) j

lemma read_file_loop_none_iff (lines : List LaunchInput) : ∀ n : Nat,
    (read_file_loop lines n = none ↔ lines.any has_fork_fail = true) := by
  induction lines with
  | nil => intro n; simp [read_file_loop]
  | cons l rest ih =>
      intro n
      cases hr : read_file_loop rest (n + 1) with
      | none =>
          have hany := (ih (n + 1)).mp hr
          cases l with
          | emptyLine => simp [read_file_loop, hr, has_fork_fail, hany]
          | cmd path res =>
              cases res with
              | forkFail => simp [read_file_loop, has_fork_fail]
              | execFail => simp [read_file_loop, hr, has_fork_fail, hany]
              | started pid => simp [read_file_loop, hr, has_fork_fail, hany]
      | some p =>
          obtain ⟨reports, pids⟩ := p
          have hany : rest.any has_fork_fail = false := by
            rcases Bool.eq_false_or_eq_true (rest.any has_fork_fail) with ht | hf
            · exact absurd ((ih (n + 1)).mpr ht) (by simp [hr])
            · exact hf
          cases l with
          | emptyLine => simp [read_file_loop, hr, has_fork_fail, hany]
          | cmd path res =>
              cases res with
              | forkFail => simp [read_file_loop, has_fork_fail]
              | execFail => simp [read_file_loop, hr, has_fork_fail, hany]
              | started pid => simp [read_file_loop, hr, has_fork_fail, hany]

lemma read_file_loop_eq (lines : List LaunchInput) : ∀ n : Nat,
    lines.any has_fork_fail = false →
    read_file_loop lines n =
      some ((number_from n lines).map (fun p => (p.1, launch_status p.2)),
        lines.filterMap success_pid) := by
  induction lines with
  | nil => intro n h; simp [read_file_loop, number_from]
  | cons l rest ih =>
      intro n h
      simp only [List.any_cons, Bool.or_eq_false_iff] at h
      have hrest := ih (n + 1) h.2
      cases l with
      | emptyLine =>
          simp [read_file_loop, hrest, number_from, launch_status, success_pid]
      | cmd path res =>
          cases res with
          | forkFail => simp [has_fork_fail] at h
          | execFail =>
              simp [read_file_loop, hrest, number_from, launch_status, success_pid]
          | started pid =>
              simp [read_file_loop, hrest, number_from, launch_status, success_pid]

/-! ## C7 -/

/-- C7: per-line launch failures are isolated: `read_file` aborts the
whole program exactly when some line's `fork()` itself fails; otherwise
every line gets its own numbered report determined by that line alone
(an empty line is reported `badEmpty`, i.e. "badprogram" with no path,
without being launched; an exec failure is reported `badProgram path`),
and only successfully started lines contribute a pid to the table. -/
theorem launch_failures_spec :
    (∀ lines : List LaunchInput,
      read_file lines = none ↔ lines.any has_fork_fail = true) ∧
    (∀ lines : List LaunchInput, lines.any has_fork_fail = false →
      read_file lines =
        some ((number_from 0 lines).map (fun p => (p.1, launch_status p.2)),
          lines.filterMap success_pid)) ∧
    (launch_status LaunchInput.emptyLine = LaunchStatus.badEmpty ∧
      success_pid LaunchInput.emptyLine = none) ∧
    (∀ path, launch_status (LaunchInput.cmd path ExecResult.execFail) =
        LaunchStatus.badProgram path ∧
      success_pid (LaunchInput.cmd path ExecResult.execFail) = none) :=
  ⟨fun lines => read_file_loop_none_iff lines 0,
    fun lines h => read_file_loop_eq lines 0 h,
    ⟨rfl, rfl⟩, fun _ => ⟨rfl, rfl⟩⟩

/-- C7 witness: an empty line, an exec failure and a success in one
file: each slot is reported independently, only the success enters the
pid table; a fork failure alone is fatal. -/
theorem launch_failures_spec_witness :
    read_file [LaunchInput.emptyLine, LaunchInput.cmd "a" ExecResult.execFail,
        LaunchInput.cmd "b" (ExecResult.started 4)] =
      some ([(0, LaunchStatus.badEmpty), (1, LaunchStatus.badProgram "a"),
        (2, LaunchStatus.started "b" 4)], [4]) ∧
    read_file [LaunchInput.cmd "c" ExecResult.forkFail] = none := by
  constructor
  · have h := launch_failures_spec.2.1
      [LaunchInput.emptyLine, LaunchInput.cmd "a" ExecResult.execFail,
        LaunchInput.cmd "b" (ExecResult.started 4)] rfl
    rw [h]; rfl
  · exact (launch_failures_spec.1 [LaunchInput.cmd "c" ExecResult.forkFail]).mpr rfl

/-! ## C8 -/

/-- C8: a file of N valid command lines, all of which launch, yields a
process table of exactly N entries, every one reported as started
successfully, for arbitrary N. -/
theorem all_valid_spec (lines : List LaunchInput)
    (h : ∀ l ∈ lines, ∃ path pid, l = LaunchInput.cmd path (ExecResult.started pid)) :
    ∃ reports pids, read_file lines = some (reports, pids) ∧
      reports.length = lines.length ∧ pids.length = lines.length ∧
      ∀ r ∈ reports, ∃ path pid, r.2 = LaunchStatus.started path pid := by
  have hff : lines.any has_fork_fail = false := by
    rw [List.any_eq_false]
    intro l hl
    obtain ⟨path, pid, rfl⟩ := h l hl
    simp [has_fork_fail]
  refine ⟨_, _, read_file_loop_eq lines 0 hff, ?_, ?_, ?_⟩
  · rw [List.length_map, number_from_length]
  · refine filterMap_length_of_isSome success_pid lines ?_
    intro l hl
    obtain ⟨path, pid, rfl⟩ := h l hl
    simp [success_pid]
  · intro r hr
    rw [List.mem_map] at hr
    obtain ⟨⟨k, l⟩, hmem, rfl⟩ := hr
    obtain ⟨path, pid, rfl⟩ := h l (number_from_mem 0 k l hmem)
    exact ⟨path, pid, rfl⟩

/-- C8 witness: twelve identical valid lines — past the initial table
capacity of 10 — give twelve started entries. -/
theorem all_valid_spec_witness :
    ∃ reports pids,
      read_file (List.replicate 12 (LaunchInput.cmd "p" (ExecResult.started 3))) =
        some (reports, pids) ∧
      reports.length = 12 ∧ pids.length = 12 ∧
      ∀ r ∈ reports, ∃ path pid, r.2 = LaunchStatus.started path pid := by
  obtain ⟨reports, pids, h1, h2, h3, h4⟩ :=
    all_valid_spec (List.replicate 12 (LaunchInput.cmd "p" (ExecResult.started 3)))
      (by intro l hl; rw [List.eq_of_mem_replicate hl]; exact ⟨"p", 3, rfl⟩)
  exact ⟨reports, pids, h1, by simpa using h2, by simpa using h3, h4⟩

/-! ## C2 -/

/-- C2 counterexample: with input lines `bad` (exec failure) then
`good` (started, pid 7), the launch report for pid 7 prints index 1,
but the pid table is `[7]`, so the periodic report and the Termination
Handler print pid 7 under index 0 — the failed launch does not occupy a
slot of the polled table, and the indices disagree. -/
theorem index_stability_cex :
    read_file [LaunchInput.cmd "bad" ExecResult.execFail,
        LaunchInput.cmd "good" (ExecResult.started 7)] =
      some ([(0, LaunchStatus.badProgram "bad"), (1, LaunchStatus.started "good" 7)], [7]) ∧
    (report_pass env_sample 100 [(7, 0)] 0).lines = [ReportLine.running 0 30 2] ∧
    (terminate_program env_sample.alive [7] 9).output =
      [OutLine.terminatedLine 0, OutLine.exitingLine 9] ∧
    (1 : Nat) ≠ 0 :=
  ⟨rfl, rfl, rfl, by decide⟩

/-- C2 (amended): launch reports are numbered by 0-based input line
order; the polled pid table keeps only the successfully started lines,
in order (failed launches are excluded from polling entirely rather
than holding a dead slot); when every line launches successfully the
i-th polled pid is exactly the pid launched with printed index i. -/
theorem index_order_amended (lines : List LaunchInput)
    (h : lines.any has_fork_fail = false) :
    ∃ reports pids, read_file lines = some (reports, pids) ∧
      reports.map Prod.fst = List.range lines.length ∧
      pids = lines.filterMap success_pid ∧
      ((∀ l ∈ lines, (success_pid l).isSome = true) →
        ∀ i : Nat, pids[i]? = (lines[i]?).bind success_pid) := by
  refine ⟨_, _, read_file_loop_eq lines 0 h, ?_, rfl, ?_⟩
  · rw [List.map_map]
    have hcomp : (Prod.fst ∘ fun p : Nat × LaunchInput => (p.1, launch_status p.2)) =
        Prod.fst := rfl
    rw [hcomp, number_from_map_fst, List.range_eq_range']
  · intro hall i
    exact filterMap_getElem_of_isSome success_pid lines hall i

/-- C2 amended witness: two successful lines — launch indices 0 and 1,
pid table `[9, 11]`, and the i-th polled pid is the pid of line i. -/
theorem index_order_amended_witness :
    ∃ reports pids,
      read_file [LaunchInput.cmd "y" (ExecResult.started 9),
        LaunchInput.cmd "z" (ExecResult.started 11)] = some (reports, pids) ∧
      reports.map Prod.fst = List.range 2 ∧
      pids = [9, 11] ∧ pids[0]? = some 9 ∧ pids[1]? = some 11 := by
  obtain ⟨reports, pids, h1, h2, h3, h4⟩ :=
    index_order_amended [LaunchInput.cmd "y" (ExecResult.started 9),
      LaunchInput.cmd "z" (ExecResult.started 11)] rfl
  refine ⟨reports, pids, h1, by simpa using h2, by rw [h3]; rfl, ?_, ?_⟩
  · rw [h4 (by decide) 0]; rfl
  · rw [h4 (by decide) 1]; rfl

/-! ## Run-level lemmas -/

lemma reportToOut_ne_terminated (r : ReportLine) (i : Nat) :
    reportToOut r ≠ OutLine.terminatedLine i := by
  cases r <;> simp [reportToOut]

lemma terminated_notin_pass (l : List ReportLine) (i : Nat) :
    OutLine.terminatedLine i ∉ l.map reportToOut := by
  intro h
  rw [List.mem_map] at h
  obtain ⟨r, _, hr⟩ := h
  exact reportToOut_ne_terminated r i hr

lemma run_allExited_inv (START TARGET clk : Int) (ienv : Nat → IntervalEnv) :
    ∀ (fuel k : Nat) (procs : List (Nat × Int)) (out : List OutLine) (code : Nat),
      run START TARGET clk ienv fuel k procs = RunOutcome.allExited out code →
      code = 0 ∧ ∀ i, OutLine.terminatedLine i ∉ out := by
  intro fuel
  induction fuel with
  | zero => intro k procs out code h; simp [run] at h
  | succ n ih =>
      intro k procs out code h
      simp only [run] at h
      by_cases hdone : (report_pass (ienv k).env clk procs 0).done = true
      · rw [if_pos hdone] at h
        rw [RunOutcome.allExited.injEq] at h
        obtain ⟨h1, h2⟩ := h
        subst h1
        refine ⟨h2.symm, fun i => ?_⟩
        rw [List.mem_append]
        rintro (hm | hm)
        · exact terminated_notin_pass _ i hm
        · simp at hm
      · rw [if_neg hdone] at h
        cases hfs : find_stop START TARGET (ienv k).polls with
        | some t => rw [hfs] at h; simp at h
        | none =>
            rw [hfs] at h
            cases hrun : run START TARGET clk ienv n (k + 1)
                ((procs.map Prod.fst).zip (report_pass (ienv k).env clk procs 0).counters) with
            | allExited o c =>
                rw [hrun] at h
                rw [RunOutcome.allExited.injEq] at h
                obtain ⟨ho, hc⟩ := h
                obtain ⟨hc0, hno⟩ := ih (k + 1) _ o c hrun
                subst ho
                refine ⟨by omega, fun i => ?_⟩
                rw [List.mem_append]
                rintro (hm | hm)
                · exact terminated_notin_pass _ i hm
                · exact hno i hm
            | terminated o c => rw [hrun] at h; simp at h
            | fuelOut o => rw [hrun] at h; simp at h

/-! ## C3 -/

/-- C3: when an interval pass finds no tracked process alive
(`done == 1`), the program prints the total elapsed wall-clock time and
exits with code 0 at once — before the sleep loop, so before any
deadline/interrupt check of that interval, whatever the poll sequence
holds — and the Termination Handler is never invoked; consequently a
run that ends on the all-exited path has exit code 0 and never printed
a `Terminated` line. -/
theorem all_exited_spec :
    (∀ (START TARGET clk : Int) (ienv : Nat → IntervalEnv) (fuel k : Nat)
        (procs : List (Nat × Int)),
      (report_pass (ienv k).env clk procs 0).done = true →
      run START TARGET clk ienv (fuel + 1) k procs =
        RunOutcome.allExited
          ((report_pass (ienv k).env clk procs 0).lines.map reportToOut ++
            [OutLine.exitingLine ((ienv k).doneTime - START)]) 0) ∧
    (∀ (START TARGET clk : Int) (ienv : Nat → IntervalEnv) (fuel k : Nat)
        (procs : List (Nat × Int)) (out : List OutLine) (code : Nat),
      run START TARGET clk ienv fuel k procs = RunOutcome.allExited out code →
      code = 0 ∧ ∀ i, OutLine.terminatedLine i ∉ out) := by
  constructor
  · intro START TARGET clk ienv fuel k procs hdone
    simp [run, hdone]
  · intro START TARGET clk ienv fuel k procs out code h
    exact run_allExited_inv START TARGET clk ienv fuel k procs out code h

/-- C3 witness: one already-exited child, interrupt flag already set at
the first poll (both stop conditions hold): the run still exits through
the all-exited path with code 0 and no `Terminated` line. -/
theorem all_exited_spec_witness :
    (report_pass (cenv_dead 0).env 100 [(5, 0)] 0).done = true ∧
    run 0 (-1) 100 cenv_dead 1 0 [(5, 0)] =
      RunOutcome.allExited [OutLine.exitedLine 0, OutLine.exitingLine 7] 0 ∧
    OutLine.terminatedLine 0 ∉ [OutLine.exitedLine 0, OutLine.exitingLine 7] := by
  have h1 := all_exited_spec.1 0 (-1) 100 cenv_dead 0 0 [(5, 0)] rfl
  have hrun : run 0 (-1) 100 cenv_dead 1 0 [(5, 0)] =
      RunOutcome.allExited [OutLine.exitedLine 0, OutLine.exitingLine 7] 0 := by
    rw [h1]; rfl
  exact ⟨rfl, hrun,
    (all_exited_spec.2 0 (-1) 100 cenv_dead 1 0 [(5, 0)] _ _ hrun).2 0⟩

/-! ## C4 -/

lemma terminate_loop_eq (alive : Nat → Bool) (pids : List Nat) : ∀ n : Nat,
    terminate_loop alive pids n =
      ((number_from n pids).map
          (fun p => if alive p.2 then OutLine.terminatedLine p.1 else OutLine.exitedLine p.1),
        pids.filter (fun p => alive p)) := by
  induction pids with
  | nil => intro n; rfl
  | cons p rest ih =>
      intro n
      simp only [terminate_loop]
      rw [ih (n + 1)]
      by_cases hp : alive p = true
      · simp [number_from, hp, List.filter_cons]
      · simp [number_from, hp, List.filter_cons]

/-- C4: the Termination Handler checks every tracked pid in index order
with a non-blocking liveness check, prints `[index] Terminated` and
kills exactly the still-running ones, prints `[index] Exited` for the
already-exited ones, then prints the total elapsed time and ends the
program with exit code 0; invoked from the supervision loop it is
terminal — the run ends there, with that output and exit code 0. -/
theorem terminate_spec :
    (∀ (alive : Nat → Bool) (pids : List Nat) (elapsed : Int),
      terminate_program alive pids elapsed =
        ⟨(number_from 0 pids).map
            (fun p => if alive p.2 then OutLine.terminatedLine p.1 else OutLine.exitedLine p.1) ++
          [OutLine.exitingLine elapsed],
          pids.filter (fun p => alive p), 0⟩) ∧
    (∀ (START TARGET clk : Int) (ienv : Nat → IntervalEnv) (fuel k : Nat)
        (procs : List (Nat × Int)) (t : Int),
      (report_pass (ienv k).env clk procs 0).done = false →
      find_stop START TARGET (ienv k).polls = some t →
      run START TARGET clk ienv (fuel + 1) k procs =
        RunOutcome.terminated
          ((report_pass (ienv k).env clk procs 0).lines.map reportToOut ++
            (terminate_program (ienv k).env.alive (procs.map Prod.fst) (t - START)).output) 0) := by
  constructor
  · intro alive pids elapsed
    simp only [terminate_program]
    rw [terminate_loop_eq alive pids 0]
  · intro START TARGET clk ienv fuel k procs t hdone hstop
    simp [run, hdone, hstop, terminate_program]

/-- C4 witness: pids 3 (alive) and 4 (exited): `[0] Terminated`,
`[1] Exited`, only pid 3 killed, then the total time and exit code 0;
and a concrete stopped run ending in the Termination Handler. -/
theorem terminate_spec_witness :
    terminate_program (fun p => p == 3) [3, 4] 9 =
      ⟨[OutLine.terminatedLine 0, OutLine.exitedLine 1, OutLine.exitingLine 9], [3], 0⟩ ∧
    run 0 10 100 cenv_alive 1 0 [(7, 100)] =
      RunOutcome.terminated
        [OutLine.runningLine 0 10 2, OutLine.terminatedLine 0, OutLine.exitingLine 20] 0 := by
  constructor
  · rw [terminate_spec.1 (fun p => p == 3) [3, 4] 9]; rfl
  · have h := terminate_spec.2 0 10 100 cenv_alive 0 0 [(7, 100)] 20 rfl rfl
    rw [h]; rfl

end MacD
